import Mathlib

/-!
Verification of the BibReview multi-source retrieval and normalization engine.

The definitions below are a shallow embedding of the Python sources under
`src/revsys/`: records are association lists from column names to string
values (Python dicts whose values are rendered as strings), adapters' raw API
items are structures whose `Option` fields model present/absent JSON keys,
and the network is modelled by passing the per-page responses as a function
argument.  Loops that are driven by the remote total count are given explicit
fuel and return `Option` (`none` = fuel exhausted), so every definition is
executable.
-/

set_option maxHeartbeats 1000000

/-- A Python dict holding one bibliographic record: an association list from
column name to (string-rendered) value.  `List.lookup` is `dict.get`. -/
abbrev Registro := List (String × String)

/-- The fixed list of canonical columns, `STANDARD_COLUMNS` in every client
module (`crossref.py`, `scopus.py`, `pubmed_api.py`, ...). -/
def STANDARD_COLUMNS : List String :=
  ["ID", "Authors", "Authors Year", "Title", "Journal", "Publication Year",
   "Publication Date", "Abstract", "DOI", "Language", "Is Accepted", "Is Published",
   "Type", "Type Crossref", "Indexed In", "Is Open Access", "OA Status",
   "Download URL", "Cited By Count", "API"]

/-- Key lookup distributes over append: a binding in the left list wins. -/
theorem lookupAppendSome {k : String} {v : String} {l1 l2 : Registro}
    (h : List.lookup k l1 = some v) : List.lookup k (l1 ++ l2) = some v := by
  induction l1 with
  | nil => simp [List.lookup] at h
  | cons p rest ih =>
    rcases p with ⟨k', v'⟩
    by_cases hk : k = k'
    · subst hk
      simp [List.lookup] at h ⊢
      exact h
    · have hb : (k == k') = false := beq_false_of_ne hk
      simp only [List.lookup, hb, List.cons_append] at h ⊢
      exact ih h

/-- Key lookup distributes over append: if the key is absent on the left,
lookup continues in the right list. -/
theorem lookupAppendNone {k : String} {l1 l2 : Registro}
    (h : List.lookup k l1 = none) : List.lookup k (l1 ++ l2) = List.lookup k l2 := by
  induction l1 with
  | nil => simp
  | cons p rest ih =>
    rcases p with ⟨k', v'⟩
    by_cases hk : k = k'
    · subst hk
      simp [List.lookup] at h
    · have hb : (k == k') = false := beq_false_of_ne hk
      simp only [List.lookup, hb, List.cons_append] at h ⊢
      exact ih h

/-- Looking up the key of a freshly appended singleton binding. -/
theorem lookupSingletonSelf (k v : String) :
    List.lookup k ([(k, v)] : Registro) = some v := by
  simp [List.lookup]

/-- The body of `padroniza_registro`'s for-loop: walk the column list and
append a `"N/A"` binding for each column that is not yet present. -/
def padronizaGo : List String → Registro → Registro
  | [], r => r
  | c :: cs, r =>
      match List.lookup c r with
      | some _ => padronizaGo cs r
      | none => padronizaGo cs (r ++ [(c, "N/A")])

/-- `padroniza_registro` (identical in `crossref.py`, `scopus.py`, `plos.py`,
`arxiv.py`, `scholar.py`, `pubmed_api.py`, `springernature.py`,
`openalex.py`): fill every missing standard column with `"N/A"`. -/
def padroniza_registro (registro : Registro) : Registro :=
  padronizaGo STANDARD_COLUMNS registro

/-- The loop never erases a binding: values present before survive. -/
theorem padronizaGo_preserves {k v : String} :
    ∀ (cols : List String) (r : Registro),
      List.lookup k r = some v → List.lookup k (padronizaGo cols r) = some v := by
  intro cols
  induction cols with
  | nil => intro r h; simpa [padronizaGo] using h
  | cons c cs ih =>
    intro r h
    cases hc : List.lookup c r with
    | some w => simp only [padronizaGo, hc]; exact ih r h
    | none => simp only [padronizaGo, hc]; exact ih _ (lookupAppendSome h)

/-- After the loop, every column of the processed list has a value. -/
theorem padronizaGo_isSome {k : String} :
    ∀ (cols : List String) (r : Registro),
      k ∈ cols → (List.lookup k (padronizaGo cols r)).isSome := by
  intro cols
  induction cols with
  | nil => intro r h; cases h
  | cons c cs ih =>
    intro r hmem
    rcases List.mem_cons.mp hmem with hk | hk
    · subst hk
      cases hc : List.lookup k r with
      | some w =>
        simp only [padronizaGo, hc]
        rw [padronizaGo_preserves cs r hc]
        rfl
      | none =>
        simp only [padronizaGo, hc]
        have hval : List.lookup k (r ++ [(k, "N/A")]) = some "N/A" := by
          rw [lookupAppendNone hc]
          exact lookupSingletonSelf k "N/A"
        rw [padronizaGo_preserves cs _ hval]
        rfl
    · cases hc : List.lookup c r with
      | some w => simp only [padronizaGo, hc]; exact ih r hk
      | none => simp only [padronizaGo, hc]; exact ih _ hk

/-- A column that was absent gets exactly the sentinel `"N/A"`. -/
theorem padronizaGo_none {k : String} :
    ∀ (cols : List String) (r : Registro),
      k ∈ cols → List.lookup k r = none →
      List.lookup k (padronizaGo cols r) = some "N/A" := by
  intro cols
  induction cols with
  | nil => intro r h; cases h
  | cons c cs ih =>
    intro r hmem hnone
    rcases List.mem_cons.mp hmem with hk | hk
    · subst hk
      simp only [padronizaGo, hnone]
      have hval : List.lookup k (r ++ [(k, "N/A")]) = some "N/A" := by
        rw [lookupAppendNone hnone]
        exact lookupSingletonSelf k "N/A"
      exact padronizaGo_preserves cs _ hval
    · cases hc : List.lookup c r with
      | some w => simp only [padronizaGo, hc]; exact ih r hk hnone
      | none =>
        simp only [padronizaGo, hc]
        by_cases hck : k = c
        · subst hck
          have hval : List.lookup k (r ++ [(k, "N/A")]) = some "N/A" := by
            rw [lookupAppendNone hnone]
            exact lookupSingletonSelf k "N/A"
          exact padronizaGo_preserves cs _ hval
        · have hstill : List.lookup k (r ++ [(c, "N/A")]) = none := by
            rw [lookupAppendNone hnone]
            have hb : (k == c) = false := beq_false_of_ne hck
            simp [List.lookup, hb]
          exact ih _ hk hstill

/-- C5: every record leaving `padroniza_registro` has all twenty standard
fields present; a field the adapter did not set is filled with `"N/A"`, and a
field the adapter did set keeps its value. -/
theorem padroniza_schema_completeness (r : Registro) :
    STANDARD_COLUMNS.length = 20 ∧
    (∀ c, c ∈ STANDARD_COLUMNS → ∃ v, List.lookup c (padroniza_registro r) = some v) ∧
    (∀ c, c ∈ STANDARD_COLUMNS → List.lookup c r = none →
        List.lookup c (padroniza_registro r) = some "N/A") ∧
    (∀ c v, List.lookup c r = some v → List.lookup c (padroniza_registro r) = some v) := by
  refine ⟨rfl, ?_, ?_, ?_⟩
  · intro c hc
    exact Option.isSome_iff_exists.mp (padronizaGo_isSome STANDARD_COLUMNS r hc)
  · intro c hc hnone
    exact padronizaGo_none STANDARD_COLUMNS r hc hnone
  · intro c v hv
    exact padronizaGo_preserves STANDARD_COLUMNS r hv

/-- Witness for C5 at the concrete record that only sets `ID`. -/
theorem padroniza_schema_completeness_witness :
    (∃ v, List.lookup "Abstract" (padroniza_registro [("ID", "x")]) = some v) ∧
    List.lookup "Abstract" (padroniza_registro [("ID", "x")]) = some "N/A" ∧
    List.lookup "ID" (padroniza_registro [("ID", "x")]) = some "x" :=
  ⟨(padroniza_schema_completeness [("ID", "x")]).2.1 "Abstract" (by decide),
   (padroniza_schema_completeness [("ID", "x")]).2.2.1 "Abstract" (by decide) (by decide),
   (padroniza_schema_completeness [("ID", "x")]).2.2.2 "ID" "x" (by decide)⟩

/-- The deduplication key used by `cli.search`:
`drop_duplicates(subset=['DOI', 'Title'], keep='first')`. -/
def dedupKey (r : Registro) : Option String × Option String :=
  (List.lookup "DOI" r, List.lookup "Title" r)

/-- pandas `DataFrame.drop_duplicates(subset=['DOI','Title'], keep='first')`
on the concatenated record list: keep a row iff its key was not seen in an
earlier row. -/
def dedupSeen (seen : List (Option String × Option String)) :
    List Registro → List Registro
  | [] => []
  | r :: rs =>
      if dedupKey r ∈ seen then dedupSeen seen rs
      else r :: dedupSeen (dedupKey r :: seen) rs

/-- The dedup step of `cli.search` (cli.py lines 126-127). -/
def drop_duplicates_doi_title (l : List Registro) : List Registro :=
  dedupSeen [] l

/-- A surviving record comes from the input and its key was unseen. -/
theorem mem_dedupSeen {r : Registro} :
    ∀ (seen : List (Option String × Option String)) (l : List Registro),
      r ∈ dedupSeen seen l → r ∈ l ∧ dedupKey r ∉ seen := by
  intro seen l
  induction l generalizing seen with
  | nil => intro h; cases h
  | cons x xs ih =>
    intro h
    simp only [dedupSeen] at h
    by_cases hx : dedupKey x ∈ seen
    · rw [if_pos hx] at h
      rcases ih seen h with ⟨hmem, hns⟩
      exact ⟨List.mem_cons_of_mem x hmem, hns⟩
    · rw [if_neg hx] at h
      rcases List.mem_cons.mp h with rfl | htail
      · exact ⟨List.mem_cons_self _ _, hx⟩
      · rcases ih _ htail with ⟨hmem, hns⟩
        have : dedupKey r ∉ seen := fun hcon => hns (List.mem_cons_of_mem _ hcon)
        exact ⟨List.mem_cons_of_mem x hmem, this⟩

/-- Deduplication only deletes rows: the output is a sublist of the input. -/
theorem dedupSeen_sublist :
    ∀ (seen : List (Option String × Option String)) (l : List Registro),
      List.Sublist (dedupSeen seen l) l := by
  intro seen l
  induction l generalizing seen with
  | nil => simp [dedupSeen]
  | cons x xs ih =>
    simp only [dedupSeen]
    by_cases hx : dedupKey x ∈ seen
    · rw [if_pos hx]
      exact List.Sublist.cons x (ih seen)
    · rw [if_neg hx]
      exact List.Sublist.cons₂ x (ih _)

/-- No two surviving records share a (DOI, Title) key. -/
theorem dedupSeen_pairwise :
    ∀ (seen : List (Option String × Option String)) (l : List Registro),
      (dedupSeen seen l).Pairwise (fun a b => dedupKey a ≠ dedupKey b) := by
  intro seen l
  induction l generalizing seen with
  | nil => simp [dedupSeen]
  | cons x xs ih =>
    simp only [dedupSeen]
    by_cases hx : dedupKey x ∈ seen
    · rw [if_pos hx]; exact ih seen
    · rw [if_neg hx]
      refine List.Pairwise.cons ?_ (ih _)
      intro b hb hcon
      rcases mem_dedupSeen _ _ hb with ⟨_, hns⟩
      exact hns (by rw [← hcon]; exact List.mem_cons_self _ _)

/-- Every input key that is not already `seen` is represented in the output. -/
theorem dedupSeen_covers {r : Registro} :
    ∀ (seen : List (Option String × Option String)) (l : List Registro),
      r ∈ l → dedupKey r ∉ seen →
      ∃ r', r' ∈ dedupSeen seen l ∧ dedupKey r' = dedupKey r := by
  intro seen l
  induction l generalizing seen with
  | nil => intro h; cases h
  | cons x xs ih =>
    intro hmem hns
    simp only [dedupSeen]
    by_cases hx : dedupKey x ∈ seen
    · rw [if_pos hx]
      rcases List.mem_cons.mp hmem with rfl | htail
      · exact absurd hx hns
      · exact ih seen htail hns
    · rw [if_neg hx]
      rcases List.mem_cons.mp hmem with rfl | htail
      · exact ⟨r, List.mem_cons_self _ _, rfl⟩
      · by_cases hkey : dedupKey r = dedupKey x
        · exact ⟨x, List.mem_cons_self _ _, hkey.symm⟩
        · have : dedupKey r ∉ dedupKey x :: seen := by
            intro hcon
            rcases List.mem_cons.mp hcon with h1 | h2
            · exact hkey h1
            · exact hns h2
          rcases ih _ htail this with ⟨r', hr', hkey'⟩
          exact ⟨r', List.mem_cons_of_mem x hr', hkey'⟩

/-- A surviving record is the first input record bearing its key. -/
theorem dedupSeen_first {r' : Registro} :
    ∀ (seen : List (Option String × Option String)) (l : List Registro),
      r' ∈ dedupSeen seen l →
      l.find? (fun x => decide (dedupKey x = dedupKey r')) = some r' := by
  intro seen l
  induction l generalizing seen with
  | nil => intro h; cases h
  | cons x xs ih =>
    intro hmem
    simp only [dedupSeen] at hmem
    by_cases hx : dedupKey x ∈ seen
    · rw [if_pos hx] at hmem
      have hns : dedupKey r' ∉ seen := (mem_dedupSeen seen xs hmem).2
      have hne : dedupKey x ≠ dedupKey r' := fun hcon => hns (hcon ▸ hx)
      rw [List.find?_cons_of_neg _ (by simpa using hne)]
      exact ih seen hmem
    · rw [if_neg hx] at hmem
      rcases List.mem_cons.mp hmem with rfl | htail
      · rw [List.find?_cons_of_pos _ (by simp)]
      · have hns : dedupKey r' ∉ dedupKey x :: seen := (mem_dedupSeen _ xs htail).2
        have hne : dedupKey x ≠ dedupKey r' := by
          intro hcon
          exact hns (by rw [← hcon]; exact List.mem_cons_self _ _)
        rw [List.find?_cons_of_neg _ (by simpa using hne)]
        exact ih _ htail

/-- C3 (amended): `cli.search` deduplicates the concatenated records by the
(DOI, Title) pair keeping the first occurrence, and this applies to every
key — including the pair ("N/A", "N/A"), whose bearers also collapse to the
single first occurrence.  In the output no two records share a (DOI, Title)
key, every input key is represented, and each surviving record is the first
input record with its key. -/
theorem dedup_doi_title_first_occurrence (l : List Registro) :
    (drop_duplicates_doi_title l).Pairwise (fun a b => dedupKey a ≠ dedupKey b) ∧
    List.Sublist (drop_duplicates_doi_title l) l ∧
    (∀ r, r ∈ l → ∃ r', r' ∈ drop_duplicates_doi_title l ∧ dedupKey r' = dedupKey r) ∧
    (∀ r', r' ∈ drop_duplicates_doi_title l →
      l.find? (fun x => decide (dedupKey x = dedupKey r')) = some r') := by
  refine ⟨dedupSeen_pairwise [] l, dedupSeen_sublist [] l, ?_, ?_⟩
  · intro r hr
    exact dedupSeen_covers [] l hr (by simp)
  · intro r' hr'
    exact dedupSeen_first [] l hr'

/-- Witness for C3's amended theorem on a concrete two-record input. -/
theorem dedup_doi_title_first_occurrence_witness :
    (∃ r', r' ∈ drop_duplicates_doi_title
        [padroniza_registro [("ID", "a")], padroniza_registro [("ID", "b")]] ∧
      dedupKey r' = dedupKey (padroniza_registro [("ID", "b")])) ∧
    [padroniza_registro [("ID", "a")], padroniza_registro [("ID", "b")]].find?
        (fun x => decide (dedupKey x = dedupKey (padroniza_registro [("ID", "a")]))) =
      some (padroniza_registro [("ID", "a")]) :=
  ⟨(dedup_doi_title_first_occurrence
      [padroniza_registro [("ID", "a")], padroniza_registro [("ID", "b")]]).2.2.1
      (padroniza_registro [("ID", "b")]) (by decide),
   (dedup_doi_title_first_occurrence
      [padroniza_registro [("ID", "a")], padroniza_registro [("ID", "b")]]).2.2.2
      (padroniza_registro [("ID", "a")]) (by decide)⟩

/-- Counterexample to C3 as stated: two distinct records whose DOI and Title
are both "N/A" ARE considered duplicates by `drop_duplicates` — the second
one is dropped, while the claim says such records are never duplicates of
each other. -/
theorem dedup_na_pair_is_collapsed :
    List.lookup "DOI" (padroniza_registro [("ID", "a")]) = some "N/A" ∧
    List.lookup "Title" (padroniza_registro [("ID", "a")]) = some "N/A" ∧
    List.lookup "DOI" (padroniza_registro [("ID", "b")]) = some "N/A" ∧
    List.lookup "Title" (padroniza_registro [("ID", "b")]) = some "N/A" ∧
    padroniza_registro [("ID", "a")] ≠ padroniza_registro [("ID", "b")] ∧
    drop_duplicates_doi_title
        [padroniza_registro [("ID", "a")], padroniza_registro [("ID", "b")]] =
      [padroniza_registro [("ID", "a")]] := by
  refine ⟨by decide, by decide, by decide, by decide, by decide, by decide⟩

/-- `toOption` on the outcome of one source in `cli.search`: a source that
raised is `none`, a source whose DataFrame came back is `some`. -/
def exceptOk (o : Except Unit (List Registro)) : Option (List Registro) :=
  match o with
  | .ok df => some df
  | .error _ => none

/-- The `df_list` accumulation of `cli.search` (cli.py lines 48-123): each
source is run inside `try/except`; on an exception the source is skipped
(`continue`), and an empty DataFrame is not appended. -/
def searchDfList : List (Except Unit (List Registro)) → List (List Registro)
  | [] => []
  | .error _ :: rest => searchDfList rest
  | .ok df :: rest =>
      if df.isEmpty then searchDfList rest else df :: searchDfList rest

/-- `cli.search` aggregation for one query (cli.py lines 48-131): run the
sources, keep the non-empty successful DataFrames, concatenate them and
deduplicate by (DOI, Title); report "No records found" (`none`) when no
source contributed. -/
def searchAggregate (outcomes : List (Except Unit (List Registro))) :
    Option (List Registro) :=
  let dfl := searchDfList outcomes
  if dfl.isEmpty then none else some (drop_duplicates_doi_title dfl.flatten)

/-- The concatenation ignores failed sources and empty frames. -/
theorem searchDfList_flatten (outcomes : List (Except Unit (List Registro))) :
    (searchDfList outcomes).flatten = (outcomes.filterMap exceptOk).flatten := by
  induction outcomes with
  | nil => rfl
  | cons o rest ih =>
    cases o with
    | error e => simpa [searchDfList, exceptOk] using ih
    | ok df =>
      by_cases hdf : df.isEmpty
      · have : df = [] := List.isEmpty_iff.mp hdf
        subst this
        simpa [searchDfList, exceptOk] using ih
      · simp [searchDfList, exceptOk, hdf, ih]

/-- `df_list` is empty exactly when the successful sources contributed no
records at all. -/
theorem searchDfList_isEmpty (outcomes : List (Except Unit (List Registro))) :
    (searchDfList outcomes).isEmpty = ((outcomes.filterMap exceptOk).flatten).isEmpty := by
  induction outcomes with
  | nil => rfl
  | cons o rest ih =>
    cases o with
    | error e => simpa [searchDfList, exceptOk] using ih
    | ok df =>
      by_cases hdf : df.isEmpty
      · have : df = [] := List.isEmpty_iff.mp hdf
        subst this
        simpa [searchDfList, exceptOk] using ih
      · have hne : df ≠ [] := fun hcon => by simp [hcon] at hdf
        cases df with
        | nil => exact absurd rfl hne
        | cons a as => simp [searchDfList, exceptOk]

/-- C4: a failing source never aborts the aggregation.  The result of
`cli.search`'s per-query aggregation equals the deduplicated concatenation of
just the successful sources' records, and is literally unchanged when the
failed sources are deleted from the source list. -/
theorem search_failure_isolation (outcomes : List (Except Unit (List Registro))) :
    searchAggregate outcomes =
      (if ((outcomes.filterMap exceptOk).flatten).isEmpty then none
       else some (drop_duplicates_doi_title (outcomes.filterMap exceptOk).flatten)) ∧
    searchAggregate outcomes =
      searchAggregate (outcomes.filter (fun o => (exceptOk o).isSome)) := by
  constructor
  · simp only [searchAggregate, searchDfList_isEmpty, searchDfList_flatten]
  · simp only [searchAggregate, searchDfList_isEmpty, searchDfList_flatten]
    have hfil : (outcomes.filter (fun o => (exceptOk o).isSome)).filterMap exceptOk =
        outcomes.filterMap exceptOk := by
      induction outcomes with
      | nil => rfl
      | cons o rest ih =>
        cases o with
        | error e => simpa [List.filter, exceptOk] using ih
        | ok df => simpa [List.filter, exceptOk] using ih
    rw [hfil]

/-- A Python exception as seen by the retry decorator: `isRequestException`
tells whether it is an instance of `requests.exceptions.RequestException`
(the sole class `retry_if_exception_type` tests in `http_retry.py`), and
`httpStatus` carries the HTTP status code when the exception wraps a
response (e.g. `HTTPError` from `raise_for_status`, which is raised for 4xx
and 5xx alike and IS a `RequestException`). -/
structure PyError where
  isRequestException : Bool
  httpStatus : Option Nat
deriving DecidableEq, Repr

/-- Model of tenacity's `wait_exponential(multiplier=1, min=1, max=10)`:
the wait before retrying after attempt `n` is `multiplier * 2^(n-1)`,
clamped into [min, max]. -/
def waitExponential (multiplier mn mx n : Nat) : Nat :=
  max mn (min (multiplier * 2 ^ (n - 1)) mx)

/-- Model of the tenacity loop configured in `http_retry.py`: `fuel` is the
number of attempts still allowed (`stop_after_attempt`), `attempt` the
1-based attempt number.  An attempt is retried only when its exception is a
`RequestException` and an attempt remains; `reraise=True` re-raises the last
exception otherwise.  Returns the outcome and the number of attempts made. -/
def tenacityRetry {α : Type} (op : Nat → Except PyError α) :
    Nat → Nat → Except PyError α × Nat
  | 0, attempt => (.error ⟨false, none⟩, attempt)
  | fuel + 1, attempt =>
      match op attempt with
      | .ok a => (.ok a, attempt)
      | .error e =>
          if e.isRequestException ∧ fuel ≠ 0 then
            tenacityRetry op fuel (attempt + 1)
          else (.error e, attempt)

/-- `retry_on_fail` (http_retry.py lines 8-13): tenacity with
`stop_after_attempt(3)`, `wait_exponential(multiplier=1, min=1, max=10)`,
`retry_if_exception_type(requests.exceptions.RequestException)` and
`reraise=True`, applied to a zero-argument operation (`op` gives the outcome
of each attempt). -/
def retry_on_fail {α : Type} (op : Nat → Except PyError α) : Except PyError α × Nat :=
  tenacityRetry op 3 1

/-- C1 (amended): `retry_on_fail` classifies by exception type only.  Any
`RequestException` — regardless of HTTP status, including 4xx `HTTPError` —
is retried up to 3 attempts total and the original error is re-raised after
the final failed attempt; an exception that is not a `RequestException` is
raised immediately after a single attempt; a success is returned at once;
the waits between attempts follow a doubling, capped exponential backoff
starting at 1. -/
theorem retry_on_fail_classification (α : Type) :
    (∀ (e : PyError) (op : Nat → Except PyError α),
        e.isRequestException = true → (∀ n, op n = .error e) →
        retry_on_fail op = (.error e, 3)) ∧
    (∀ (e : PyError) (op : Nat → Except PyError α),
        e.isRequestException = false → op 1 = .error e →
        retry_on_fail op = (.error e, 1)) ∧
    (∀ (a : α) (op : Nat → Except PyError α),
        op 1 = .ok a → retry_on_fail op = (.ok a, 1)) ∧
    (∀ (e : PyError) (a : α) (op : Nat → Except PyError α),
        op 1 = .error e → e.isRequestException = true → op 2 = .ok a →
        retry_on_fail op = (.ok a, 2)) ∧
    (waitExponential 1 1 10 1 = 1 ∧
     ∀ n, 1 ≤ n →
       waitExponential 1 1 10 (n + 1) = min (2 * waitExponential 1 1 10 n) 10) := by
  refine ⟨?_, ?_, ?_, ?_, ?_, ?_⟩
  · intro e op hreq hall
    simp [retry_on_fail, tenacityRetry, hall 1, hall 2, hall 3, hreq]
  · intro e op hreq h1
    simp [retry_on_fail, tenacityRetry, h1, hreq]
  · intro a op h1
    simp [retry_on_fail, tenacityRetry, h1]
  · intro e a op h1 hreq h2
    simp [retry_on_fail, tenacityRetry, h1, h2, hreq]
  · rfl
  · intro n hn
    obtain ⟨m, rfl⟩ : ∃ m, n = m + 1 := ⟨n - 1, by omega⟩
    have h2 : (2 : ℕ) ^ (m + 1) = 2 * 2 ^ m := by rw [pow_succ]; ring
    have h1le : 1 ≤ (2 : ℕ) ^ m := Nat.one_le_two_pow
    simp only [waitExponential, Nat.add_sub_cancel, one_mul]
    rcases le_or_lt ((2 : ℕ) ^ m) 10 with hle | hlt <;> omega

/-- Witness for C1's amended theorem: a persistent 503-carrying
`RequestException` is retried to 3 attempts; a non-`RequestException` error
(e.g. the plain `Exception` Scopus raises for a bad status) stops at 1. -/
theorem retry_on_fail_classification_witness :
    retry_on_fail (fun _ => (.error ⟨true, some 503⟩ : Except PyError Unit)) =
      (.error ⟨true, some 503⟩, 3) ∧
    retry_on_fail (fun _ => (.error ⟨false, some 500⟩ : Except PyError Unit)) =
      (.error ⟨false, some 500⟩, 1) ∧
    retry_on_fail (fun _ => (.ok () : Except PyError Unit)) = (.ok (), 1) :=
  ⟨(retry_on_fail_classification Unit).1 ⟨true, some 503⟩ _ rfl (fun _ => rfl),
   (retry_on_fail_classification Unit).2.1 ⟨false, some 500⟩ _ rfl rfl,
   (retry_on_fail_classification Unit).2.2.1 () _ rfl⟩

/-- Counterexample to C1 as stated: an operation that always raises a
`RequestException` carrying HTTP status 401 (what `raise_for_status` raises
on a 401/403 response inside the PubMed/PLOS page fetchers) is attempted 3
times, not raised immediately with zero retries. -/
theorem retry_on_fail_retries_401 :
    retry_on_fail (fun _ => (.error ⟨true, some 401⟩ : Except PyError Unit)) =
      (.error ⟨true, some 401⟩, 3) ∧
    (retry_on_fail (fun _ => (.error ⟨true, some 401⟩ : Except PyError Unit))).2 ≠ 1 := by
  exact ⟨rfl, by decide⟩

/-- Python's `\s` / `str.strip()` whitespace on the ASCII range. -/
def pyIsSpace (c : Char) : Bool :=
  c = ' ' || c = '\t' || c = '\n' || c = '\r' || c = '\x0b' || c = '\x0c'

/-- One pass of `re.sub(r'<[^>]+>', '', s)` as a state machine: outside a
candidate tag characters are emitted; after a `<` the characters are held in
`buf` (the `<` included) until a `>` arrives.  A `>` right after the `<`
(`buf = ['<']`) is not a match — `[^>]+` needs at least one character — so
the buffer is flushed; otherwise the whole `<...>` is dropped.  An
unterminated `<...` is flushed at the end of input, as the regex leaves it. -/
def stripTagsGo : List Char → Option (List Char) → List Char
  | [], none => []
  | [], some buf => buf
  | c :: rest, none =>
      if c = '<' then stripTagsGo rest (some ['<'])
      else c :: stripTagsGo rest none
  | c :: rest, some buf =>
      if c = '>' then
        if 2 ≤ buf.length then stripTagsGo rest none
        else buf ++ '>' :: stripTagsGo rest none
      else stripTagsGo rest (some (buf ++ [c]))

/-- `re.sub(r'<[^>]+>', '', s)` from `CrossrefAPI.process_data`. -/
def stripTags (l : List Char) : List Char :=
  stripTagsGo l none

/-- Decode one HTML entity name (without `&` and `;`).  Models the common
named and decimal entities handled by Python's `html.unescape`. -/
def entityChar (buf : List Char) : Option Char :=
  if buf = ['a', 'm', 'p'] then some '&'
  else if buf = ['l', 't'] then some '<'
  else if buf = ['g', 't'] then some '>'
  else if buf = ['q', 'u', 'o', 't'] then some '"'
  else if buf = ['a', 'p', 'o', 's'] then some '\''
  else if buf = ['n', 'b', 's', 'p'] then some ' '
  else
    match buf with
    | '#' :: ds =>
        if ds ≠ [] ∧ ds.all Char.isDigit then
          some (Char.ofNat (ds.foldl (fun acc d => 10 * acc + (d.toNat - 48)) 0))
        else none
    | _ => none

/-- Model of Python's `html.unescape` as a state machine: outside an entity
characters pass through; `&` opens a candidate entity accumulated in `buf`
(the `&` included); at `;` the name is decoded via `entityChar` or the text
is flushed verbatim; a fresh `&`, an over-long candidate or the end of input
also flush verbatim. -/
def pyUnescapeGo : List Char → Option (List Char) → List Char
  | [], none => []
  | [], some buf => buf
  | c :: rest, none =>
      if c = '&' then pyUnescapeGo rest (some ['&'])
      else c :: pyUnescapeGo rest none
  | c :: rest, some buf =>
      if c = ';' then
        match entityChar (buf.drop 1) with
        | some ch => ch :: pyUnescapeGo rest none
        | none => buf ++ ';' :: pyUnescapeGo rest none
      else if c = '&' then buf ++ pyUnescapeGo rest (some ['&'])
      else if 10 ≤ buf.length then buf ++ c :: pyUnescapeGo rest none
      else pyUnescapeGo rest (some (buf ++ [c]))

/-- `html.unescape` applied by `CrossrefAPI.process_data`. -/
def pyUnescape (l : List Char) : List Char :=
  pyUnescapeGo l none

/-- `re.sub(r'\s+', ' ', s)`: every whitespace run becomes a single `' '`.
The boolean records whether the previous character was whitespace. -/
def collapseWsGo : List Char → Bool → List Char
  | [], _ => []
  | c :: rest, inRun =>
      if pyIsSpace c then
        if inRun then collapseWsGo rest true
        else ' ' :: collapseWsGo rest true
      else c :: collapseWsGo rest false

/-- `re.sub(r'\s+', ' ', s)` from `CrossrefAPI.process_data`. -/
def collapseWs (l : List Char) : List Char :=
  collapseWsGo l false

/-- Python `str.strip()`: drop whitespace from both ends. -/
def pyStrip (l : List Char) : List Char :=
  ((l.dropWhile pyIsSpace).reverse.dropWhile pyIsSpace).reverse

/-- Python `str.upper()` on the ASCII range. -/
def pyUpper (l : List Char) : List Char :=
  l.map Char.toUpper

/-- The abstract-cleaning branch of `CrossrefAPI.process_data` (crossref.py
lines 123-137): a raw abstract that strips to empty or to the literal
sentinel becomes "N/A"; otherwise tags are removed, entities unescaped,
whitespace collapsed and the ends trimmed. -/
def cleanAbstract (raw : String) : String :=
  if pyStrip raw.toList ≠ [] ∧ pyUpper (pyStrip raw.toList) ≠ ['N', '/', 'A'] then
    String.mk (pyStrip (collapseWs (pyUnescape (stripTags raw.toList))))
  else "N/A"

/-- No two adjacent whitespace characters. -/
def noDoubleWs : List Char → Bool
  | [] => true
  | [_] => true
  | a :: b :: rest => !(pyIsSpace a && pyIsSpace b) && noDoubleWs (b :: rest)

/-- An "already-clean" abstract in the sense of the spec: non-empty text with
no tags (`<`), no entities (`&`), all whitespace being single plain spaces,
no whitespace at either end, and not the literal sentinel. -/
def isCleanAbstract (s : String) : Bool :=
  let l := s.toList
  !l.isEmpty &&
  l.all (fun c => c ≠ '<' && c ≠ '&' && (!pyIsSpace c || c = ' ')) &&
  noDoubleWs l &&
  (match l.head? with | some c => !pyIsSpace c | none => true) &&
  (match l.getLast? with | some c => !pyIsSpace c | none => true) &&
  pyUpper l ≠ ['N', '/', 'A']

/-- Tag stripping leaves a `<`-free text unchanged. -/
theorem stripTags_id {l : List Char} (h : ∀ c ∈ l, c ≠ '<') : stripTags l = l := by
  unfold stripTags
  induction l with
  | nil => rfl
  | cons c rest ih =>
    have hc : c ≠ '<' := h c (List.mem_cons_self _ _)
    have hrest : ∀ c ∈ rest, c ≠ '<' := fun x hx => h x (List.mem_cons_of_mem _ hx)
    simp only [stripTagsGo, if_neg hc]
    rw [ih hrest]

/-- Entity unescaping leaves an `&`-free text unchanged. -/
theorem pyUnescape_id {l : List Char} (h : ∀ c ∈ l, c ≠ '&') : pyUnescape l = l := by
  unfold pyUnescape
  induction l with
  | nil => rfl
  | cons c rest ih =>
    have hc : c ≠ '&' := h c (List.mem_cons_self _ _)
    have hrest : ∀ c ∈ rest, c ≠ '&' := fun x hx => h x (List.mem_cons_of_mem _ hx)
    simp only [pyUnescapeGo, if_neg hc]
    rw [ih hrest]

/-- `noDoubleWs` restricts to the tail. -/
theorem noDoubleWs_tail {c : Char} {rest : List Char}
    (h : noDoubleWs (c :: rest) = true) : noDoubleWs rest = true := by
  cases rest with
  | nil => rfl
  | cons d ds =>
    simp only [noDoubleWs, Bool.and_eq_true] at h
    exact h.2

/-- Whitespace collapsing is the identity on a text whose whitespace is
exactly single plain spaces, provided no space follows a pending run. -/
theorem collapseWsGo_id :
    ∀ (l : List Char) (b : Bool),
      (∀ c ∈ l, pyIsSpace c = true → c = ' ') → noDoubleWs l = true →
      (b = true → ∀ c, l.head? = some c → pyIsSpace c = false) →
      collapseWsGo l b = l := by
  intro l
  induction l with
  | nil => intro b _ _ _; rfl
  | cons c rest ih =>
    intro b hall hnd hhead
    have hallRest : ∀ x ∈ rest, pyIsSpace x = true → x = ' ' :=
      fun x hx => hall x (List.mem_cons_of_mem _ hx)
    cases hsp : pyIsSpace c with
    | true =>
      have hb : b = false := by
        cases b with
        | false => rfl
        | true => exact absurd hsp (by simp [hhead rfl c rfl])
      subst hb
      have hceq : c = ' ' := hall c (List.mem_cons_self _ _) hsp
      have hheadRest : ∀ x, rest.head? = some x → pyIsSpace x = false := by
        intro x hx
        cases rest with
        | nil => cases hx
        | cons d ds =>
          cases hx
          simp only [noDoubleWs, Bool.and_eq_true, Bool.not_eq_true',
            Bool.and_eq_false_iff] at hnd
          rcases hnd.1 with h1 | h2
          · exact absurd hsp (by simp [h1])
          · exact h2
      simp only [collapseWsGo, hsp, if_true]
      rw [← hceq]
      rw [ih true hallRest (noDoubleWs_tail hnd) (fun _ => hheadRest)]
      simp
    | false =>
      simp only [collapseWsGo, hsp]
      rw [ih false hallRest (noDoubleWs_tail hnd) (fun hcon => by cases hcon)]
      simp

/-- `dropWhile` is the identity when the head fails the predicate. -/
theorem dropWhileIdOfHead {p : Char → Bool} {l : List Char}
    (h : ∀ c, l.head? = some c → p c = false) : l.dropWhile p = l := by
  cases l with
  | nil => rfl
  | cons c rest => simp [List.dropWhile, h c rfl]

/-- Stripping is the identity when neither end is whitespace. -/
theorem pyStrip_id {l : List Char}
    (hhead : ∀ c, l.head? = some c → pyIsSpace c = false)
    (hlast : ∀ c, l.getLast? = some c → pyIsSpace c = false) : pyStrip l = l := by
  unfold pyStrip
  rw [dropWhileIdOfHead hhead]
  rw [dropWhileIdOfHead (fun c hc => hlast c (by rwa [List.head?_reverse] at hc))]
  exact List.reverse_reverse l

/-- Rebuilding a string from its character list is the identity. -/
theorem stringMkToList (s : String) : String.mk s.toList = s := rfl

/-- C7: the Crossref abstract cleaning maps an abstract that is empty,
whitespace-only or the literal sentinel to "N/A"; it transforms the spec's
example by stripping tags, unescaping, collapsing whitespace and trimming;
and it returns an already-clean abstract unchanged. -/
theorem clean_abstract_contract (s : String) :
    (pyStrip s.toList = [] → cleanAbstract s = "N/A") ∧
    (pyUpper (pyStrip s.toList) = ['N', '/', 'A'] → cleanAbstract s = "N/A") ∧
    (isCleanAbstract s = true → cleanAbstract s = s) ∧
    cleanAbstract "<p>Sample <b>abstract</b> text.</p>" = "Sample abstract text." := by
  refine ⟨?_, ?_, ?_, by decide⟩
  · intro h
    unfold cleanAbstract
    exact if_neg (fun hcon => hcon.1 h)
  · intro h
    unfold cleanAbstract
    exact if_neg (fun hcon => hcon.2 h)
  · intro h
    simp only [isCleanAbstract, Bool.and_eq_true] at h
    obtain ⟨⟨⟨⟨⟨hne, hall⟩, hnd⟩, hhead⟩, hlast⟩, hupper⟩ := h
    have hlt : ∀ c ∈ s.toList, c ≠ '<' := by
      intro c hc
      have := List.all_eq_true.mp hall c hc
      simp only [Bool.and_eq_true] at this
      simpa using this.1.1
    have hamp : ∀ c ∈ s.toList, c ≠ '&' := by
      intro c hc
      have := List.all_eq_true.mp hall c hc
      simp only [Bool.and_eq_true] at this
      simpa using this.1.2
    have hws : ∀ c ∈ s.toList, pyIsSpace c = true → c = ' ' := by
      intro c hc hsp
      have := List.all_eq_true.mp hall c hc
      simp only [Bool.and_eq_true] at this
      have h3 := this.2
      simp only [Bool.or_eq_true, Bool.not_eq_true'] at h3
      rcases h3 with h3 | h3
      · rw [hsp] at h3; cases h3
      · simpa using h3
    have hhead' : ∀ c, s.toList.head? = some c → pyIsSpace c = false := by
      intro c hc
      rw [hc] at hhead
      simpa using hhead
    have hlast' : ∀ c, s.toList.getLast? = some c → pyIsSpace c = false := by
      intro c hc
      rw [hc] at hlast
      simpa using hlast
    have hstrip : pyStrip s.toList = s.toList := pyStrip_id hhead' hlast'
    have hupper' : pyUpper s.toList ≠ ['N', '/', 'A'] := by
      simpa using hupper
    have cond1 : pyStrip s.toList ≠ [] := by
      rw [hstrip]
      intro hcon
      rw [List.isEmpty_iff.mpr hcon] at hne
      cases hne
    have cond2 : pyUpper (pyStrip s.toList) ≠ ['N', '/', 'A'] := by
      rw [hstrip]
      exact hupper'
    unfold cleanAbstract
    rw [if_pos ⟨cond1, cond2⟩]
    rw [stripTags_id hlt, pyUnescape_id hamp]
    show String.mk (pyStrip (collapseWsGo s.toList false)) = s
    rw [collapseWsGo_id s.toList false hws hnd (fun hcon => absurd hcon (by simp))]
    rw [hstrip]
    exact stringMkToList s

/-- Witness for C7 at concrete inputs: empty, whitespace-only and sentinel
abstracts become "N/A"; a clean abstract is returned unchanged. -/
theorem clean_abstract_contract_witness :
    cleanAbstract "" = "N/A" ∧ cleanAbstract "  " = "N/A" ∧
    cleanAbstract " n/a " = "N/A" ∧
    cleanAbstract "Sample abstract text." = "Sample abstract text." :=
  ⟨(clean_abstract_contract "").1 (by decide),
   (clean_abstract_contract "  ").1 (by decide),
   (clean_abstract_contract " n/a ").2.1 (by decide),
   (clean_abstract_contract "Sample abstract text.").2.2.1 (by decide)⟩

/-- Python `str.split()` (no argument): split on whitespace runs, no empty
pieces.  `cur` holds the characters of the current word, reversed. -/
def pySplitAux : List Char → List Char → List String
  | [], [] => []
  | [], cur => [String.mk cur.reverse]
  | c :: rest, cur =>
      if pyIsSpace c then
        if cur.isEmpty then pySplitAux rest []
        else String.mk cur.reverse :: pySplitAux rest []
      else pySplitAux rest (c :: cur)

/-- Python `s.split()`. -/
def pySplit (s : String) : List String :=
  pySplitAux s.toList []

/-- Python `s.split()[-1]` (total, returning `""` on a whitespace-only
string, where Python would raise). -/
def lastTokenD (s : String) : String :=
  (pySplit s).getLast?.getD ""

/-- A Crossref `author` JSON object: `given` and `family` keys, each
possibly absent. -/
structure CrossrefAuthor where
  given : Option String
  family : Option String
deriving DecidableEq, Repr

/-- `f"{given} {family}".strip()` with `author.get("given", "")` and
`author.get("family", "")` (crossref.py lines 76-78 and 116-118). -/
def crossrefFullName (a : CrossrefAuthor) : String :=
  String.mk (pyStrip ((a.given.getD "") ++ " " ++ (a.family.getD "")).toList)

/-- The non-empty rendered names list built by both
`CrossrefAPI._format_authors_year` and `CrossrefAPI.process_data`. -/
def crossrefNames (authorsData : List CrossrefAuthor) : List String :=
  (authorsData.map crossrefFullName).filter (fun n => n ≠ "")

/-- `CrossrefAPI._format_authors_year` (crossref.py lines 70-92). -/
def crossref_format_authors_year (authorsData : List CrossrefAuthor)
    (pubYear : String) : String :=
  if authorsData.isEmpty then "Unknown " ++ pubYear
  else
    match crossrefNames authorsData with
    | [] => pubYear
    | [n] => lastTokenD n ++ " " ++ pubYear
    | [n1, n2] => lastTokenD n1 ++ " and " ++ lastTokenD n2 ++ " " ++ pubYear
    | n1 :: _ :: _ :: _ => lastTokenD n1 ++ " et al. " ++ pubYear

/-- `PubMedAPI._make_authors_year` (pubmed_api.py lines 519-537). -/
def pubmed_make_authors_year (authorsList : List String) (year : String) : String :=
  match authorsList with
  | [] => "Unknown " ++ year
  | a :: rest =>
      if rest.isEmpty then lastTokenD a ++ " " ++ year
      else lastTokenD a ++ " et al. " ++ year

/-- The Authors-Year branch of `PyAlexFetcher._process_works` (openalex.py
lines 79-90), which uses the authors' full `display_name`s. -/
def openalexAuthorsYear (authorsList : List String) (publicationYear : String) : String :=
  match authorsList with
  | [] => "N/A " ++ publicationYear
  | [a] => a ++ " " ++ publicationYear
  | [a, b] => a ++ " and " ++ b ++ " " ++ publicationYear
  | a :: _ :: _ :: _ => a ++ " et al. " ++ publicationYear

/-- The count-based Authors-Year rule exactly as the spec words it (spec
section 4.3), applied to a list of last names. -/
def claimAuthorsYear (lastNames : List String) (year : String) : String :=
  match lastNames with
  | [] => "Unknown " ++ year
  | [n] => n ++ " " ++ year
  | [n1, n2] => n1 ++ " and " ++ n2 ++ " " ++ year
  | n1 :: _ :: _ :: _ => n1 ++ " et al. " ++ year

/-- C6 (amended): the Crossref tag follows the spec's count-based rules with
last name = final whitespace token of the rendered full name (0 renderable
names inside a non-empty author array give just the year); the PubMed tag
uses "et al." already for 2 authors; the OpenAlex tag keeps the authors'
full display names and tags 0 authors with "N/A {year}". -/
theorem authors_year_rules (year : String) :
    (crossref_format_authors_year [] year = "Unknown " ++ year) ∧
    (∀ authorsData, authorsData ≠ [] → crossrefNames authorsData = [] →
        crossref_format_authors_year authorsData year = year) ∧
    (∀ authorsData, authorsData ≠ [] → crossrefNames authorsData ≠ [] →
        crossref_format_authors_year authorsData year =
          claimAuthorsYear ((crossrefNames authorsData).map lastTokenD) year) ∧
    (pubmed_make_authors_year [] year = "Unknown " ++ year) ∧
    (∀ a, pubmed_make_authors_year [a] year = lastTokenD a ++ " " ++ year) ∧
    (∀ a b rest, pubmed_make_authors_year (a :: b :: rest) year =
        lastTokenD a ++ " et al. " ++ year) ∧
    (openalexAuthorsYear [] year = "N/A " ++ year) ∧
    (∀ a, openalexAuthorsYear [a] year = a ++ " " ++ year) ∧
    (∀ a b, openalexAuthorsYear [a, b] year = a ++ " and " ++ b ++ " " ++ year) ∧
    (∀ a b c rest, openalexAuthorsYear (a :: b :: c :: rest) year =
        a ++ " et al. " ++ year) := by
  refine ⟨rfl, ?_, ?_, rfl, fun a => rfl, fun a b rest => rfl,
    rfl, fun a => rfl, fun a b => rfl, fun a b c rest => rfl⟩
  · intro authorsData hne hnames
    have hempty : authorsData.isEmpty = false := by
      cases authorsData with
      | nil => exact absurd rfl hne
      | cons x xs => rfl
    simp only [crossref_format_authors_year, hempty, Bool.false_eq_true, if_false, hnames]
  · intro authorsData hne hnames
    have hempty : authorsData.isEmpty = false := by
      cases authorsData with
      | nil => exact absurd rfl hne
      | cons x xs => rfl
    simp only [crossref_format_authors_year, hempty, Bool.false_eq_true, if_false]
    cases hn : crossrefNames authorsData with
    | nil => exact absurd hn hnames
    | cons n1 ns =>
      cases ns with
      | nil => rfl
      | cons n1 ns1 =>
        cases ns1 with
        | nil => rfl
        | cons n2 ns2 => rfl

/-- Witness for C6's amended theorem at the spec's own example inputs. -/
theorem authors_year_rules_witness :
    crossref_format_authors_year
        [⟨some "John", some "Doe"⟩] "2023" =
      claimAuthorsYear ((crossrefNames [⟨some "John", some "Doe"⟩]).map lastTokenD) "2023" ∧
    crossref_format_authors_year [⟨none, none⟩] "2023" = "2023" ∧
    pubmed_make_authors_year ["A Silva", "B Souza"] "2023" =
      lastTokenD "A Silva" ++ " et al. " ++ "2023" :=
  ⟨(authors_year_rules "2023").2.2.1 [⟨some "John", some "Doe"⟩] (by decide) (by decide),
   (authors_year_rules "2023").2.1 [⟨none, none⟩] (by decide) (by decide),
   (authors_year_rules "2023").2.2.2.2.2.1 "A Silva" "B Souza" []⟩

/-- Counterexample to C6 as stated: for two authors, PubMed's
`_make_authors_year` produces "Silva et al. 2023", not the claimed
"Silva and Souza 2023"; and for one author OpenAlex keeps the full display
name "Ada Lovelace", not the last name. -/
theorem authors_year_two_author_mismatch :
    pubmed_make_authors_year ["A Silva", "B Souza"] "2023" = "Silva et al. 2023" ∧
    claimAuthorsYear ["Silva", "Souza"] "2023" = "Silva and Souza 2023" ∧
    pubmed_make_authors_year ["A Silva", "B Souza"] "2023" ≠
      claimAuthorsYear ["Silva", "Souza"] "2023" ∧
    openalexAuthorsYear ["Ada Lovelace"] "2023" = "Ada Lovelace 2023" ∧
    openalexAuthorsYear ["Ada Lovelace"] "2023" ≠ claimAuthorsYear ["Lovelace"] "2023" := by
  refine ⟨by decide, by decide, by decide, by decide, by decide⟩

/-- One item of a Crossref `/works` response, with the keys
`CrossrefAPI.process_data` reads (`none` / `[]` = key absent). -/
structure CrossrefItem where
  doi : Option String
  title : List String
  containerTitle : List String
  issuedDateParts : List (List Int)
  author : List CrossrefAuthor
  abstract : Option String
  language : Option String
  itemType : Option String
  license : List String
  url : Option String
  isReferencedByCount : Option Int
deriving DecidableEq, Repr

/-- A Crossref response: `message.items` and `message.total-results`. -/
structure CrossrefData where
  items : List CrossrefItem
  totalResults : Nat
deriving Repr

/-- The per-item body of `CrossrefAPI.process_data` (crossref.py lines
98-177): extract each field with its default, clean the abstract, build the
record dict and apply `padroniza_registro`. -/
def mkCrossrefRegistro (item : CrossrefItem) : Registro :=
  let doi := item.doi.getD "N/A"
  let title := item.title.head?.getD "N/A"
  let journal := item.containerTitle.head?.getD "N/A"
  let issued := item.issuedDateParts
  let issuedOk := issued ≠ [] ∧ issued.head?.getD [] ≠ []
  let pubYear := if issuedOk then toString ((issued.head?.getD []).head?.getD 0) else "N/A"
  let pubDate :=
    if issuedOk then String.intercalate "-" ((issued.head?.getD []).map toString)
    else "N/A"
  let authorsList := crossrefNames item.author
  let authors := if authorsList ≠ [] then String.intercalate ", " authorsList else "N/A"
  let authorsYear := crossref_format_authors_year item.author pubYear
  let abstract := cleanAbstract (item.abstract.getD "")
  let language := item.language.getD "N/A"
  let isPublished := if pubDate ≠ "N/A" then "Yes" else "No"
  let typeVal := item.itemType.getD "N/A"
  let isOa := if item.license ≠ [] then "Yes" else "N/A"
  let oaStatus := if item.license ≠ [] then "License available" else "N/A"
  let downloadUrl := item.url.getD "N/A"
  let citedByCount := match item.isReferencedByCount with
    | some n => toString n
    | none => "N/A"
  padroniza_registro
    [("ID", doi), ("Authors", authors), ("Authors Year", authorsYear),
     ("Title", title), ("Journal", journal), ("Publication Year", pubYear),
     ("Publication Date", pubDate), ("Abstract", abstract), ("DOI", doi),
     ("Language", language), ("Is Accepted", "N/A"), ("Is Published", isPublished),
     ("Type", typeVal), ("Type Crossref", typeVal), ("Indexed In", "Crossref"),
     ("Is Open Access", isOa), ("OA Status", oaStatus),
     ("Download URL", downloadUrl), ("Cited By Count", citedByCount),
     ("API", "crossref")]

/-- `CrossrefAPI.process_data`: one record per item. -/
def crossref_process_data (data : CrossrefData) : List Registro :=
  data.items.map mkCrossrefRegistro

/-- The truthiness test `if max_records and len(all_records) >= max_records`
of `CrossrefAPI.run_pipeline` (a `None` or `0` limit never triggers). -/
def crossrefLimitHit (maxRecords : Option Nat) (len : Nat) : Bool :=
  match maxRecords with
  | none => false
  | some m => decide (m ≠ 0) && decide (m ≤ len)

/-- The `while True` pagination loop of `CrossrefAPI.run_pipeline`
(crossref.py lines 195-214): fetch a page at the current offset, stop on an
empty page, truncate-and-stop when the limit is reached, advance the offset
by `rows` and stop once it passes the reported total.  `fuel` bounds the
iteration count; `none` = fuel exhausted. -/
def crossrefLoop (rows : Nat) (fetchData : Nat → CrossrefData)
    (maxRecords : Option Nat) :
    Nat → Nat → List Registro → Option (List Registro)
  | 0, _, _ => none
  | fuel + 1, offset, acc =>
      let records := crossref_process_data (fetchData offset)
      if records.isEmpty then some acc
      else
        let acc2 := acc ++ records
        if crossrefLimitHit maxRecords acc2.length then
          some (acc2.take (maxRecords.getD 0))
        else
          let offset2 := offset + rows
          if (fetchData offset).totalResults ≤ offset2 then some acc2
          else crossrefLoop rows fetchData maxRecords fuel offset2 acc2

/-- `CrossrefAPI.run_pipeline(query, max_records, ...)`: the pagination loop
started at offset 0 with an empty accumulator, the network being the
per-offset response function. -/
def crossref_run_pipeline (rows : Nat) (fetchData : Nat → CrossrefData)
    (maxRecords : Option Nat) (fuel : Nat) : Option (List Registro) :=
  crossrefLoop rows fetchData maxRecords fuel 0 []

/-- Invariant of the Crossref loop: entering below the limit, any normal
exit stays at or below the limit. -/
theorem crossrefLoop_bound {rows m : Nat} {fetchData : Nat → CrossrefData} :
    ∀ (fuel offset : Nat) (acc res : List Registro), acc.length < m →
      crossrefLoop rows fetchData (some m) fuel offset acc = some res →
      res.length ≤ m := by
  intro fuel
  induction fuel with
  | zero => intro offset acc res hacc h; cases h
  | succ fuel ih =>
    intro offset acc res hacc h
    simp only [crossrefLoop] at h
    by_cases hemp : (crossref_process_data (fetchData offset)).isEmpty
    · rw [if_pos hemp] at h
      cases h
      omega
    · rw [if_neg hemp] at h
      by_cases hlim : crossrefLimitHit (some m)
          (acc ++ crossref_process_data (fetchData offset)).length = true
      · rw [if_pos hlim] at h
        cases h
        exact le_trans (List.length_take_le m _) (le_refl m)
      · rw [if_neg hlim] at h
        have hlt : (acc ++ crossref_process_data (fetchData offset)).length < m := by
          simp only [crossrefLimitHit, Bool.and_eq_true, decide_eq_true_eq] at hlim
          omega
        by_cases htot : (fetchData offset).totalResults ≤ offset + rows
        · rw [if_pos htot] at h
          cases h
          omega
        · rw [if_neg htot] at h
          exact ih _ _ _ hlt h

/-- C2 (amended): the Crossref pipeline honors a non-zero `max_records`
limit — whenever the pagination loop returns, the output length never
exceeds the limit.  (The Scopus fetcher does not: see the counterexample.) -/
theorem crossref_max_records_bound (rows fuel m : Nat)
    (fetchData : Nat → CrossrefData) (res : List Registro) (hm : m ≠ 0)
    (h : crossref_run_pipeline rows fetchData (some m) fuel = some res) :
    res.length ≤ m :=
  crossrefLoop_bound fuel 0 [] res (by simpa using Nat.pos_of_ne_zero hm) h

/-- An all-defaults Crossref item. -/
def crossrefItemW : CrossrefItem :=
  ⟨none, [], [], [], [], none, none, none, [], none, none⟩

/-- Witness for C2's amended theorem on a one-page, one-item response. -/
theorem crossref_max_records_bound_witness :
    (crossref_process_data ⟨[crossrefItemW], 1⟩).length ≤ 5 :=
  crossref_max_records_bound 10 3 5 (fun _ => ⟨[crossrefItemW], 1⟩)
    (crossref_process_data ⟨[crossrefItemW], 1⟩) (by decide) rfl

/-- Python `s.split("-")[0]`: the characters before the first dash. -/
def beforeFirstDash (s : String) : String :=
  String.mk (s.toList.takeWhile (fun c => c ≠ '-'))

/-- Python `s.split(",")[0].strip()`: the first comma field, trimmed. -/
def firstCommaField (s : String) : String :=
  String.mk (pyStrip (s.toList.takeWhile (fun c => c ≠ ',')))

/-- One entry of a Scopus search response, with the keys
`ScopusFetcher.fetch_references` reads. -/
structure ScopusEntry where
  dcTitle : Option String
  dcCreator : Option String
  prismCoverDate : Option String
  prismDoi : Option String
  prismPublicationName : Option String
  eid : Option String
  dcDescription : Option String
  citedbyCount : Option String
deriving DecidableEq, Repr

/-- The per-entry body of `ScopusFetcher.fetch_references` (scopus.py lines
79-128): field extraction with "N/A" defaults and `padroniza_registro`. -/
def mkScopusRegistro (result : ScopusEntry) : Registro :=
  let title := result.dcTitle.getD "N/A"
  let authors := result.dcCreator.getD "N/A"
  let coverDate := result.prismCoverDate.getD "N/A"
  let publicationYear := if coverDate ≠ "N/A" then beforeFirstDash coverDate else "N/A"
  let doi := result.prismDoi.getD "N/A"
  let journal := result.prismPublicationName.getD "N/A"
  let eid := result.eid.getD "N/A"
  let abstract := result.dcDescription.getD "N/A"
  let citedByCount := result.citedbyCount.getD "N/A"
  let firstAuthor := if authors ≠ "N/A" then firstCommaField authors else "unknown"
  let authorsYear := firstAuthor ++ " " ++ publicationYear
  let isPublished := if journal ≠ "N/A" then "Yes" else "No"
  padroniza_registro
    [("ID", eid), ("Authors", authors), ("Authors Year", authorsYear),
     ("Title", title), ("Journal", journal), ("Publication Year", publicationYear),
     ("Publication Date", coverDate), ("Abstract", abstract), ("DOI", doi),
     ("Language", "N/A"), ("Is Accepted", "N/A"), ("Is Published", isPublished),
     ("Type", "Scopus"), ("Type Crossref", "N/A"), ("Indexed In", "Scopus"),
     ("Is Open Access", "N/A"), ("OA Status", "N/A"), ("Download URL", "N/A"),
     ("Cited By Count", citedByCount), ("API", "scopus")]

/-- The `while True` loop of `ScopusFetcher.fetch_references` (scopus.py
lines 68-134): a fetch error or an empty page ends the iteration with the
records collected so far; every entry of a fetched page is converted and
appended; the loop continues only while the page is strictly larger than
`count` (`if len(entries) <= count: break`), with the offset advanced by
`count`.  There is no truncation of the accumulated list. -/
def scopusLoop (count : Nat) (fetchPage : Nat → Except Unit (List ScopusEntry)) :
    Nat → Nat → List Registro → List Registro
  | 0, _, acc => acc
  | fuel + 1, start, acc =>
      match fetchPage start with
      | .error _ => acc
      | .ok entries =>
          if entries.isEmpty then acc
          else
            let acc2 := acc ++ entries.map mkScopusRegistro
            if entries.length ≤ count then acc2
            else scopusLoop count fetchPage fuel (start + count) acc2

/-- `ScopusFetcher.fetch_references(query, count, date_research)`. -/
def scopus_fetch_references (count : Nat)
    (fetchPage : Nat → Except Unit (List ScopusEntry)) (fuel : Nat) : List Registro :=
  scopusLoop count fetchPage fuel 0 []

/-- An all-defaults Scopus entry. -/
def scopusEntryW : ScopusEntry :=
  ⟨none, none, none, none, none, none, none, none⟩

/-- A Scopus source whose first page holds 12 entries and whose later pages
are empty (the `count` page-size parameter is commented out in
`_fetch_scopus_page`, so the remote page size need not equal `count`). -/
def scopusPagesW : Nat → Except Unit (List ScopusEntry) :=
  fun start => if start = 0 then .ok (List.replicate 12 scopusEntryW) else .ok []

/-- Counterexample to C2 as stated: with the limit `count = 10`, the Scopus
fetcher returns 12 records — the adapter never truncates after aggregation,
so its output exceeds the given max-records limit. -/
theorem scopus_output_exceeds_count :
    (scopus_fetch_references 10 scopusPagesW 5).length = 12 ∧
    ¬ (scopus_fetch_references 10 scopusPagesW 5).length ≤ 10 :=
  ⟨rfl, by decide⟩

/-- Python `str.lower()` on the ASCII range. -/
def pyLower (s : String) : String :=
  String.mk (s.toList.map Char.toLower)

/-- The dictionary `PubMedAPI._parse_pubmed_article` returns for one
article (pubmed_api.py lines 434-451): plain string fields plus the
open-access flag `is_oa`, which that parser sets to `bool(pmc_id)` — true
exactly when the article carried a PubMed-Central identifier. -/
structure PubmedEntry where
  pmid : Option String
  doi : Option String
  title : Option String
  journal : Option String
  year : Option String
  publicationDate : Option String
  authorsStr : Option String
  authorsYear : Option String
  abstract : Option String
  language : Option String
  isOa : Bool
  downloadUrl : Option String
  publicationStatus : Option String
  contentType : Option String
deriving DecidableEq, Repr

/-- The per-entry body of `PubMedAPI._parse_data` (pubmed_api.py lines
278-337): ID falls back from DOI to PMID, `Is Published` is decided from the
publication status, and `Is Open Access` is `"Yes" if is_oa else "No"`. -/
def mkPubmedRegistro (entry : PubmedEntry) : Registro :=
  let pmid := entry.pmid.getD ""
  let doi := entry.doi.getD ""
  let finalId := if doi ≠ "" then doi else pmid
  let pubStatus := pyLower (entry.publicationStatus.getD "")
  let isPublished :=
    if pubStatus = "epublish" ∨ pubStatus = "ppublish" ∨ pubStatus = "pubmed" ∨
        pubStatus = "medline" then "Yes" else "No"
  let isOa := entry.isOa
  let oaStatus := if isOa then "PMC - Possibly OA" else "N/A"
  padroniza_registro
    [("ID", finalId), ("Authors", entry.authorsStr.getD ""),
     ("Authors Year", entry.authorsYear.getD ""), ("Title", entry.title.getD ""),
     ("Journal", entry.journal.getD ""), ("Publication Year", entry.year.getD ""),
     ("Publication Date", entry.publicationDate.getD ""),
     ("Abstract", entry.abstract.getD ""), ("DOI", doi),
     ("Language", entry.language.getD "N/A"), ("Is Accepted", "N/A"),
     ("Is Published", isPublished), ("Type", "article"),
     ("Type Crossref", entry.contentType.getD "N/A"), ("Indexed In", "PubMed"),
     ("Is Open Access", if isOa then "Yes" else "No"), ("OA Status", oaStatus),
     ("Download URL", entry.downloadUrl.getD ""), ("Cited By Count", "0"),
     ("API", "pubmed")]

/-- A Springer `creators` element. -/
structure SpringerCreator where
  creator : Option String
deriving DecidableEq, Repr

/-- A Springer `url` element. -/
structure SpringerUrlEntry where
  value : Option String
deriving DecidableEq, Repr

/-- Whether a string contains a dash (Python `"-" in s`). -/
def containsDash (s : String) : Bool :=
  s.toList.any (fun c => c = '-')

/-- One record of a SpringerNature `records` array, with the keys
`SpringerNature.process_data` reads. -/
structure SpringerRec where
  creators : List SpringerCreator
  publicationDate : Option String
  url : List SpringerUrlEntry
  openaccess : Option String
  doi : Option String
  title : Option String
  publicationName : Option String
  abstract : Option String
  language : Option String
  contentType : Option String
deriving DecidableEq, Repr

/-- `SpringerNature._format_authors_year` (springernature.py lines 90-111):
the surname is the first comma field of the creator string (or the whole
trimmed string without a comma); 0 / 1 / 2 / 3+ surname rules. -/
def springer_format_authors_year (creators : List SpringerCreator)
    (publicationDate : String) : String :=
  let year := if publicationDate ≠ "" then beforeFirstDash publicationDate else ""
  let surnames := creators.map (fun c =>
    let nome := c.creator.getD ""
    if nome.toList.any (fun ch => ch = ',') then firstCommaField nome
    else String.mk (pyStrip nome.toList))
  match surnames with
  | [] => year
  | [s1] => s1 ++ " " ++ year
  | [s1, s2] => s1 ++ " and " ++ s2 ++ " " ++ year
  | s1 :: _ :: _ :: _ => s1 ++ " et al. " ++ year

/-- The per-record body of `SpringerNature.process_data` (springernature.py
lines 119-153): the `openaccess` flag defaults to the string "false", and
`Is Open Access` is `"Yes"` only when it lowercases to "true". -/
def mkSpringerRegistro (rec : SpringerRec) : Registro :=
  let creators := rec.creators
  let authorsStr :=
    if creators ≠ [] then
      String.intercalate ", " (creators.map (fun c => c.creator.getD ""))
    else "N/A"
  let pubDate := rec.publicationDate.getD "N/A"
  let authorsYear :=
    if pubDate ≠ "N/A" then springer_format_authors_year creators pubDate else "N/A"
  let publicationYear :=
    if pubDate ≠ "N/A" ∧ containsDash pubDate then beforeFirstDash pubDate else "N/A"
  let downloadUrl :=
    match rec.url.head? with
    | some u => match u.value with
      | some v => v
      | none => "N/A"
    | none => "N/A"
  let openaccess := rec.openaccess.getD "false"
  let isOa := pyLower openaccess = "true"
  padroniza_registro
    [("ID", rec.doi.getD "N/A"), ("Authors", authorsStr),
     ("Authors Year", authorsYear), ("Title", rec.title.getD "N/A"),
     ("Journal", rec.publicationName.getD "N/A"),
     ("Publication Year", publicationYear), ("Publication Date", pubDate),
     ("Abstract", rec.abstract.getD "N/A"), ("DOI", rec.doi.getD "N/A"),
     ("Language", rec.language.getD "N/A"), ("Is Accepted", "N/A"),
     ("Is Published", "N/A"), ("Type", rec.contentType.getD "N/A"),
     ("Type Crossref", rec.contentType.getD "N/A"),
     ("Indexed In", "SpringerNature"),
     ("Is Open Access", if isOa then "Yes" else "No"), ("OA Status", "N/A"),
     ("Download URL", downloadUrl), ("Cited By Count", "N/A"),
     ("API", "springernature")]

/-- The `bib` sub-dictionary of a scholarly publication. -/
structure ScholarBib where
  title : String
  author : List String
  pubYear : String
  abstract : String
  venue : String
deriving DecidableEq, Repr

/-- One publication yielded by `scholarly.search_pubs`. -/
structure ScholarPub where
  bib : ScholarBib
  pubUrl : String
  numCitations : Nat
deriving DecidableEq, Repr

/-- Python `s.split(",")[0]` without trimming. -/
def beforeFirstComma (s : String) : String :=
  String.mk (s.toList.takeWhile (fun c => c ≠ ','))

/-- The per-publication body of `ScholarClient.search` (scholar.py lines
92-127): no `ID`/`DOI` key is set (padroniza fills them with "N/A"), and
`Is Open Access` is the constant "N/A". -/
def mkScholarRegistro (pub : ScholarPub) : Registro :=
  let authorsStr := String.intercalate ", " pub.bib.author
  let year := pub.bib.pubYear
  let authorsYear :=
    if authorsStr ≠ "" ∧ year ≠ "N/A" then
      lastTokenD (beforeFirstComma authorsStr) ++ " " ++ year
    else "N/A " ++ year
  padroniza_registro
    [("Authors", authorsStr), ("Authors Year", authorsYear),
     ("Title", pub.bib.title), ("Journal", pub.bib.venue),
     ("Publication Year", year), ("Publication Date", year),
     ("Abstract", pub.bib.abstract), ("Language", "N/A"),
     ("Is Accepted", "N/A"),
     ("Is Published", if year ≠ "N/A" then "Yes" else "No"),
     ("Type", "scholar"), ("Type Crossref", "N/A"),
     ("Indexed In", "Google Scholar"), ("Is Open Access", "N/A"),
     ("OA Status", "N/A"), ("Download URL", pub.pubUrl),
     ("Cited By Count", toString pub.numCitations), ("API", "scholar")]

/-- The `source` object of an OpenAlex location. -/
structure OASource where
  displayName : Option String
deriving DecidableEq, Repr

/-- An OpenAlex `primary_location` / `best_oa_location` object. -/
structure OALocation where
  source : Option OASource
  isAccepted : Option String
  isPublished : Option String
  pdfUrl : Option String
deriving DecidableEq, Repr

/-- An OpenAlex `open_access` object. -/
structure OAInfo where
  isOa : Option Bool
  oaStatus : Option String
deriving DecidableEq, Repr

/-- One OpenAlex work, with the keys `PyAlexFetcher._process_works` reads. -/
structure OAWork where
  workId : String
  abstract : Option String
  abstractInvertedIndex : Option (List (String × List Nat))
  publicationYear : Option String
  publicationDate : Option String
  doi : Option String
  language : Option String
  authorships : Option (List String)
  displayName : Option String
  primaryLocation : Option OALocation
  bestOaLocation : Option OALocation
  workType : Option String
  typeCrossref : Option String
  indexedIn : List String
  openAccess : Option OAInfo
  citedByCount : Option String
deriving DecidableEq, Repr

/-- Stable insertion (by position) preserving the original order of equal
positions — the behaviour of Python's stable `list.sort(key=...)`. -/
def sortInsertPos (p : Nat × String) : List (Nat × String) → List (Nat × String)
  | [] => [p]
  | q :: qs => if q.1 < p.1 then q :: sortInsertPos p qs else p :: q :: qs

/-- Stable sort by position. -/
def sortByPos : List (Nat × String) → List (Nat × String)
  | [] => []
  | p :: ps => sortInsertPos p (sortByPos ps)

/-- `PyAlexFetcher._convert_inverted_index` (openalex.py lines 46-53):
flatten the word-to-positions index into (position, word) pairs, sort by
position, join the words with spaces. -/
def convert_inverted_index (invIdx : List (String × List Nat)) : String :=
  let words := invIdx.flatMap (fun wp => wp.2.map (fun pos => (pos, wp.1)))
  String.intercalate " " ((sortByPos words).map (fun pw => pw.2))

/-- The truthiness check `"abstract" in w and w["abstract"]`. -/
def hasTruthyAbstract (w : OAWork) : Bool :=
  match w.abstract with
  | some a => !(a == "")
  | none => false

/-- The truthiness check `"abstract_inverted_index" in w and
w["abstract_inverted_index"]`. -/
def hasTruthyInvIdx (w : OAWork) : Bool :=
  match w.abstractInvertedIndex with
  | some ii => !ii.isEmpty
  | none => false

/-- The abstract-selection head of `PyAlexFetcher._process_works` (openalex.py
lines 59-65): direct abstract, else decoded inverted index, else `none`
(the work is skipped). -/
def openalexAbstract (w : OAWork) : Option String :=
  if hasTruthyAbstract w then w.abstract
  else if hasTruthyInvIdx w then
    some (convert_inverted_index (w.abstractInvertedIndex.getD []))
  else none

/-- Python `s.split("/")[-1]`: the characters after the last slash. -/
def afterLastSlash (s : String) : String :=
  String.mk ((s.toList.reverse.takeWhile (fun c => c ≠ '/')).reverse)

/-- The record-building tail of `PyAlexFetcher._process_works` (openalex.py
lines 67-137) for a work whose abstract `ab` was found. -/
def mkOpenalexRegistro (w : OAWork) (ab : String) : Registro :=
  let uniqueId := afterLastSlash w.workId
  let publicationYear := w.publicationYear.getD "N/A"
  let authorsList := w.authorships.getD []
  let authorsStr := if authorsList ≠ [] then String.intercalate ", " authorsList else "N/A"
  let authorsYear := openalexAuthorsYear authorsList publicationYear
  let journal :=
    match w.primaryLocation with
    | some loc =>
        match loc.source with
        | some src => src.displayName.getD "N/A"
        | none => ""
    | none => ""
  let isAccepted :=
    match w.primaryLocation with
    | some loc => loc.isAccepted.getD "N/A"
    | none => "N/A"
  let isPublished :=
    match w.primaryLocation with
    | some loc => loc.isPublished.getD "N/A"
    | none => "N/A"
  let downloadUrl1 :=
    match w.primaryLocation with
    | some loc => loc.pdfUrl.getD ""
    | none => ""
  let downloadUrl :=
    if downloadUrl1 = "" then
      match w.bestOaLocation with
      | some best => best.pdfUrl.getD ""
      | none => downloadUrl1
    else downloadUrl1
  let indexedInStr :=
    if w.indexedIn ≠ [] then String.intercalate ", " w.indexedIn else "N/A"
  let isOa :=
    match w.openAccess with
    | some i => i.isOa.getD false
    | none => false
  let oaStatus :=
    match w.openAccess with
    | some i => i.oaStatus.getD "N/A"
    | none => "N/A"
  padroniza_registro
    [("ID", uniqueId), ("Authors", authorsStr), ("Authors Year", authorsYear),
     ("Title", w.displayName.getD "N/A"), ("Journal", journal),
     ("Publication Year", publicationYear),
     ("Publication Date", w.publicationDate.getD "N/A"), ("Abstract", ab),
     ("DOI", w.doi.getD "N/A"), ("Language", w.language.getD "N/A"),
     ("Is Accepted", isAccepted), ("Is Published", isPublished),
     ("Type", w.workType.getD "N/A"), ("Type Crossref", w.typeCrossref.getD "N/A"),
     ("Indexed In", indexedInStr),
     ("Is Open Access", if isOa then "Yes" else "No"), ("OA Status", oaStatus),
     ("Download URL", downloadUrl), ("Cited By Count", w.citedByCount.getD "N/A"),
     ("API", "openalex")]

/-- The work loop of `PyAlexFetcher._process_works` (openalex.py lines
56-138): works without a usable abstract are skipped by `continue`. -/
def openalex_process_works : List OAWork → List Registro
  | [] => []
  | w :: ws =>
      match openalexAbstract w with
      | some ab => mkOpenalexRegistro w ab :: openalex_process_works ws
      | none => openalex_process_works ws

/-- C10: the OpenAlex adapter silently omits every work without a non-empty
abstract or inverted index — the output is exactly one record per work that
has an abstract signal, and prepending an abstract-less work leaves the
output untouched. -/
theorem openalex_omits_abstractless (ws : List OAWork) :
    openalex_process_works ws =
      (ws.filter (fun w => (openalexAbstract w).isSome)).map
        (fun w => mkOpenalexRegistro w ((openalexAbstract w).getD "")) ∧
    (openalex_process_works ws).length =
      (ws.filter (fun w => (openalexAbstract w).isSome)).length ∧
    (∀ w, openalexAbstract w = none →
      openalex_process_works (w :: ws) = openalex_process_works ws) := by
  refine ⟨?_, ?_, ?_⟩
  · induction ws with
    | nil => rfl
    | cons w ws ih =>
      cases hab : openalexAbstract w with
      | some ab =>
        simp only [openalex_process_works, hab, List.filter_cons, Option.isSome_some,
          decide_True, if_true, List.map_cons, hab, Option.getD_some]
        exact congrArg _ ih
      | none =>
        simp only [openalex_process_works, hab, List.filter_cons, Option.isSome_none,
          decide_False]
        exact ih
  · induction ws with
    | nil => rfl
    | cons w ws ih =>
      cases hab : openalexAbstract w with
      | some ab =>
        simp only [openalex_process_works, hab, List.filter_cons, Option.isSome_some,
          decide_True, if_true, List.length_cons]
        omega
      | none =>
        simp only [openalex_process_works, hab, List.filter_cons, Option.isSome_none,
          decide_False]
        exact ih
  · intro w hab
    simp only [openalex_process_works, hab]

/-- Witness for C10: a work carrying neither abstract form produces no
record even though it is in the input. -/
theorem openalex_omits_abstractless_witness :
    openalex_process_works
        [⟨"https://openalex.org/W1", none, none, none, none, none, none, none,
          none, none, none, none, none, [], none, none⟩] =
      openalex_process_works [] :=
  (openalex_omits_abstractless []).2.2
    ⟨"https://openalex.org/W1", none, none, none, none, none, none, none,
      none, none, none, none, none, [], none, none⟩ rfl

/-- C8 (amended): with no open-access signal, the Crossref record (no
license array) gets "N/A", and Scopus and Scholar records always carry
"N/A"; but PubMed (no PubMed-Central identifier, so `is_oa` is false),
SpringerNature (no `openaccess` flag) and OpenAlex (no `open_access`
object) default the field to the guessed "No", not to "N/A". -/
theorem open_access_no_signal (item : CrossrefItem) (se : ScopusEntry)
    (pub : ScholarPub) (entry : PubmedEntry) (rec : SpringerRec)
    (w : OAWork) (ab : String) :
    (item.license = [] →
      List.lookup "Is Open Access" (mkCrossrefRegistro item) = some "N/A") ∧
    List.lookup "Is Open Access" (mkScopusRegistro se) = some "N/A" ∧
    List.lookup "Is Open Access" (mkScholarRegistro pub) = some "N/A" ∧
    (entry.isOa = false →
      List.lookup "Is Open Access" (mkPubmedRegistro entry) = some "No") ∧
    (rec.openaccess = none →
      List.lookup "Is Open Access" (mkSpringerRegistro rec) = some "No") ∧
    (w.openAccess = none →
      List.lookup "Is Open Access" (mkOpenalexRegistro w ab) = some "No") := by
  refine ⟨?_, rfl, rfl, ?_, ?_, ?_⟩
  · intro h
    have base : List.lookup "Is Open Access" (mkCrossrefRegistro item) =
        some (if item.license ≠ [] then "Yes" else "N/A") := rfl
    rw [base, h]
    simp
  · intro h
    have base : List.lookup "Is Open Access" (mkPubmedRegistro entry) =
        some (if entry.isOa then "Yes" else "No") := rfl
    rw [base, h]
    simp
  · intro h
    have base : List.lookup "Is Open Access" (mkSpringerRegistro rec) =
        some (if pyLower (rec.openaccess.getD "false") = "true" then "Yes" else "No") := rfl
    rw [base, h]
    simp [pyLower]
  · intro h
    have base : List.lookup "Is Open Access" (mkOpenalexRegistro w ab) =
        some (if (match w.openAccess with
                  | some i => i.isOa.getD false
                  | none => false) then "Yes" else "No") := rfl
    rw [base, h]
    rfl

/-- Witness for C8's amended theorem at fully signal-less inputs. -/
theorem open_access_no_signal_witness :
    List.lookup "Is Open Access" (mkCrossrefRegistro crossrefItemW) = some "N/A" ∧
    List.lookup "Is Open Access" (mkScopusRegistro scopusEntryW) = some "N/A" ∧
    List.lookup "Is Open Access"
        (mkPubmedRegistro ⟨none, none, none, none, none, none, none, none, none,
          none, false, none, none, none⟩) = some "No" ∧
    List.lookup "Is Open Access"
        (mkSpringerRegistro ⟨[], none, [], none, none, none, none, none, none, none⟩) =
      some "No" ∧
    List.lookup "Is Open Access"
        (mkOpenalexRegistro ⟨"W1", some "a", none, none, none, none, none, none,
          none, none, none, none, none, [], none, none⟩ "a") = some "No" :=
  ⟨(open_access_no_signal crossrefItemW scopusEntryW
      ⟨⟨"", [], "", "", ""⟩, "", 0⟩
      ⟨none, none, none, none, none, none, none, none, none, none, false, none,
        none, none⟩
      ⟨[], none, [], none, none, none, none, none, none, none⟩
      ⟨"W1", some "a", none, none, none, none, none, none, none, none, none,
        none, none, [], none, none⟩ "a").1 rfl,
   (open_access_no_signal crossrefItemW scopusEntryW
      ⟨⟨"", [], "", "", ""⟩, "", 0⟩
      ⟨none, none, none, none, none, none, none, none, none, none, false, none,
        none, none⟩
      ⟨[], none, [], none, none, none, none, none, none, none⟩
      ⟨"W1", some "a", none, none, none, none, none, none, none, none, none,
        none, none, [], none, none⟩ "a").2.1,
   (open_access_no_signal crossrefItemW scopusEntryW
      ⟨⟨"", [], "", "", ""⟩, "", 0⟩
      ⟨none, none, none, none, none, none, none, none, none, none, false, none,
        none, none⟩
      ⟨[], none, [], none, none, none, none, none, none, none⟩
      ⟨"W1", some "a", none, none, none, none, none, none, none, none, none,
        none, none, [], none, none⟩ "a").2.2.2.1 rfl,
   (open_access_no_signal crossrefItemW scopusEntryW
      ⟨⟨"", [], "", "", ""⟩, "", 0⟩
      ⟨none, none, none, none, none, none, none, none, none, none, false, none,
        none, none⟩
      ⟨[], none, [], none, none, none, none, none, none, none⟩
      ⟨"W1", some "a", none, none, none, none, none, none, none, none, none,
        none, none, [], none, none⟩ "a").2.2.2.2.1 rfl,
   (open_access_no_signal crossrefItemW scopusEntryW
      ⟨⟨"", [], "", "", ""⟩, "", 0⟩
      ⟨none, none, none, none, none, none, none, none, none, none, false, none,
        none, none⟩
      ⟨[], none, [], none, none, none, none, none, none, none⟩
      ⟨"W1", some "a", none, none, none, none, none, none, none, none, none,
        none, none, [], none, none⟩ "a").2.2.2.2.2 rfl⟩

/-- Counterexample to C8 as stated: a Springer record whose source provides
no `openaccess` flag (and a PubMed entry with no PubMed-Central identifier)
is emitted with `Is Open Access` = "No" — a guessed boolean — instead of the
claimed "N/A". -/
theorem open_access_no_signal_guessed_no :
    List.lookup "Is Open Access"
        (mkSpringerRegistro ⟨[], none, [], none, none, none, none, none, none, none⟩) =
      some "No" ∧
    List.lookup "Is Open Access"
        (mkSpringerRegistro ⟨[], none, [], none, none, none, none, none, none, none⟩) ≠
      some "N/A" ∧
    List.lookup "Is Open Access"
        (mkPubmedRegistro ⟨none, none, none, none, none, none, none, none, none,
          none, false, none, none, none⟩) = some "No" ∧
    List.lookup "Is Open Access"
        (mkPubmedRegistro ⟨none, none, none, none, none, none, none, none, none,
          none, false, none, none, none⟩) ≠ some "N/A" :=
  ⟨rfl, by decide, rfl, by decide⟩

/-- A value of a triage-stage record: the original string fields or one of
the numeric similarity scores appended by the pretriage. -/
inductive PValor
  | s (v : String)
  | q (v : ℚ)
deriving DecidableEq, Repr

/-- A triage-stage record (a Python dict). -/
abbrev PRec := List (String × PValor)

/-- Python dict assignment `rec[k] = v`: replace in place, else append. -/
def dictInsert : PRec → String → PValor → PRec
  | [], k, v => [(k, v)]
  | (k', v') :: rest, k, v =>
      if k = k' then (k', v) :: rest else (k', v') :: dictInsert rest k v

/-- The two score assignments of `pretriage_records` (pretriage.py lines
132-134). -/
def setScores (rec : PRec) (si se : ℚ) : PRec :=
  dictInsert (dictInsert rec "score_inclusion" (.q si)) "score_exclusion" (.q se)

/-- The filtering loop of `pretriage_records` (pretriage.py lines 129-137):
walk `zip(records, sim_incl, sim_excl)` (the cosine-similarity scores are
computed from OpenAI embeddings upstream and enter here as data), mark both
scores on each record, and keep those with `score_i >= incl_threshold and
score_e <= excl_threshold`. -/
def pretriage_records : List PRec → List (ℚ × ℚ) → ℚ → ℚ → List PRec
  | [], _, _, _ => []
  | _ :: _, [], _, _ => []
  | rec :: recs, (si, se) :: ss, ti, te =>
      let rec2 := setScores rec si se
      if ti ≤ si ∧ se ≤ te then rec2 :: pretriage_records recs ss ti te
      else pretriage_records recs ss ti te

/-- The freshly written inclusion score is readable back. -/
theorem lookup_dictInsert_self (k : String) (v : PValor) :
    ∀ r : PRec, List.lookup k (dictInsert r k v) = some v := by
  intro r
  induction r with
  | nil => simp [dictInsert, List.lookup]
  | cons p rest ih =>
    rcases p with ⟨k', v'⟩
    by_cases hk : k = k'
    · subst hk
      simp [dictInsert, List.lookup]
    · have hb : (k == k') = false := beq_false_of_ne hk
      simp only [dictInsert, if_neg (fun hcon => hk hcon), List.lookup, hb]
      exact ih

/-- Writing one key does not disturb another. -/
theorem lookup_dictInsert_other {k k' : String} (hne : k ≠ k') (v : PValor) :
    ∀ r : PRec, List.lookup k (dictInsert r k' v) = List.lookup k r := by
  intro r
  induction r with
  | nil =>
    have hb : (k == k') = false := beq_false_of_ne hne
    simp [dictInsert, List.lookup, hb]
  | cons p rest ih =>
    rcases p with ⟨k'', v''⟩
    by_cases hk : k' = k''
    · subst hk
      have hb : (k == k') = false := beq_false_of_ne hne
      simp [dictInsert, List.lookup, hb]
    · simp only [dictInsert, if_neg (fun hcon => hk hcon), List.lookup]
      cases hkk : k == k'' with
      | true => rfl
      | false => exact ih

/-- Both score fields are present on a scored record. -/
theorem lookup_setScores (rec : PRec) (si se : ℚ) :
    List.lookup "score_inclusion" (setScores rec si se) = some (.q si) ∧
    List.lookup "score_exclusion" (setScores rec si se) = some (.q se) := by
  constructor
  · unfold setScores
    rw [lookup_dictInsert_other (by decide) _ _]
    exact lookup_dictInsert_self _ _ _
  · exact lookup_dictInsert_self _ _ _

/-- C9: the pretriage returns exactly the records whose inclusion score is
at or above the inclusion threshold and whose exclusion score is at or below
the exclusion threshold, each surviving record carrying the two appended
numeric score fields. -/
theorem pretriage_threshold_filter (records : List PRec)
    (scores : List (ℚ × ℚ)) (ti te : ℚ) :
    pretriage_records records scores ti te =
      ((records.zip scores).filter
          (fun p => decide (ti ≤ p.2.1 ∧ p.2.2 ≤ te))).map
        (fun p => setScores p.1 p.2.1 p.2.2) ∧
    (∀ r, r ∈ pretriage_records records scores ti te →
      ∃ rec si se, (rec, (si, se)) ∈ records.zip scores ∧ ti ≤ si ∧ se ≤ te ∧
        r = setScores rec si se ∧
        List.lookup "score_inclusion" r = some (.q si) ∧
        List.lookup "score_exclusion" r = some (.q se)) := by
  constructor
  · induction records generalizing scores with
    | nil => cases scores <;> rfl
    | cons rec recs ih =>
      cases scores with
      | nil => rfl
      | cons p ss =>
        rcases p with ⟨si, se⟩
        by_cases hcond : ti ≤ si ∧ se ≤ te
        · simp only [pretriage_records, if_pos hcond, List.zip_cons_cons,
            List.filter_cons, decide_eq_true hcond, List.map_cons]
          exact congrArg _ (ih ss)
        · simp only [pretriage_records, if_neg hcond, List.zip_cons_cons,
            List.filter_cons, decide_eq_false hcond]
          exact ih ss
  · induction records generalizing scores with
    | nil =>
      cases scores with
      | nil => intro r h; cases h
      | cons p ss => intro r h; cases h
    | cons rec recs ih =>
      cases scores with
      | nil => intro r h; cases h
      | cons p ss =>
        rcases p with ⟨si, se⟩
        intro r hr
        by_cases hcond : ti ≤ si ∧ se ≤ te
        · simp only [pretriage_records, if_pos hcond] at hr
          rcases List.mem_cons.mp hr with rfl | htail
          · exact ⟨rec, si, se, by simp [List.zip_cons_cons], hcond.1, hcond.2,
              rfl, (lookup_setScores rec si se).1, (lookup_setScores rec si se).2⟩
          · rcases ih ss r htail with ⟨rec', si', se', hmem, h1, h2, h3, h4, h5⟩
            exact ⟨rec', si', se', by simp [List.zip_cons_cons]; right; exact hmem,
              h1, h2, h3, h4, h5⟩
        · simp only [pretriage_records, if_neg hcond] at hr
          rcases ih ss r hr with ⟨rec', si', se', hmem, h1, h2, h3, h4, h5⟩
          exact ⟨rec', si', se', by simp [List.zip_cons_cons]; right; exact hmem,
            h1, h2, h3, h4, h5⟩

/-- Witness for C9 on a concrete run: the surviving record of a one-record
input carries its scores and passed both thresholds. -/
theorem pretriage_threshold_filter_witness :
    ∃ rec si se,
      (rec, (si, se)) ∈ ([[("Title", PValor.s "A")]].zip [((1 : ℚ), (0 : ℚ))]) ∧
      (0 : ℚ) ≤ si ∧ se ≤ (0 : ℚ) ∧
      setScores [("Title", PValor.s "A")] 1 0 = setScores rec si se ∧
      List.lookup "score_inclusion" (setScores [("Title", PValor.s "A")] 1 0) =
        some (.q si) ∧
      List.lookup "score_exclusion" (setScores [("Title", PValor.s "A")] 1 0) =
        some (.q se) :=
  (pretriage_threshold_filter [[("Title", PValor.s "A")]] [(1, 0)] 0 0).2
    (setScores [("Title", PValor.s "A")] 1 0)
    (by
      rw [show pretriage_records [[("Title", PValor.s "A")]] [(1, 0)] 0 0 =
          [setScores [("Title", PValor.s "A")] 1 0] from rfl]
      exact List.mem_cons_self _ _)
